import Mathlib

/-!
Verification of the student-monitoring data-cleaning pipeline.

The Python source operates on pandas DataFrames.  We embed a DataFrame as a
list of column names together with a list of rows, each row a list of cells;
a cell is a string, a rational number (modelling Python floats), or null
(modelling NaN/None).  Stateful pandas code (`inplace=True` mutation) is
modelled by explicit state passing; in-place mutation through object
references is modelled by an explicit heap for the frame-effect theorem.
-/

namespace StudentMonitoring

/-- A single DataFrame cell: NaN/None, a numeric value, or a string. -/
inductive Cell where
  | null : Cell
  | num (q : ℚ) : Cell
  | str (s : String) : Cell
deriving DecidableEq, Repr

/-- A pandas DataFrame: named columns and rows of cells (row i, column j). -/
structure DataFrame where
  columns : List String
  rows : List (List Cell)
deriving DecidableEq, Repr

/-- Cell of a row at column position `j` (missing positions read as null). -/
def cellAt (j : Nat) (r : List Cell) : Cell := r.getD j .null

/-! ### String helpers (Python `str` operations used by the source) -/

/-- `listPrefix p l` is true iff `p` is a prefix of `l`. -/
def listPrefix : List Char → List Char → Bool
  | [], _ => true
  | _ :: _, [] => false
  | a :: as, b :: bs => a = b && listPrefix as bs

/-- `listContains p l` is true iff `p` occurs contiguously inside `l`
(Python's `p in l` on strings). -/
def listContains (p : List Char) : List Char → Bool
  | [] => listPrefix p []
  | c :: cs => listPrefix p (c :: cs) || listContains p cs

/-- Python `s.split('/')[0]`: everything before the first `/`. -/
def takeUntilSlash : List Char → List Char
  | [] => []
  | c :: cs => if c = '/' then [] else c :: takeUntilSlash cs

/-- One character of Python `str.title()`: upper-case a letter that starts a
word (previous character not a letter), lower-case a letter inside a word,
leave non-letters unchanged. -/
def titleChar (prevAlpha : Bool) (c : Char) : Char :=
  if c.isAlpha then (if prevAlpha then c.toLower else c.toUpper) else c

/-- Python `str.title()` over a character list; `prevAlpha` records whether
the previous character was a letter. -/
def titleCase (prevAlpha : Bool) : List Char → List Char
  | [] => []
  | c :: cs => titleChar prevAlpha c :: titleCase c.isAlpha cs

/-- `CWPreprocessing.clean_column_name` / `DAFunction.clean_column_name`:
`'ResearchId'` is preserved; any other name is truncated at the first `/`,
title-cased, and has its spaces removed. -/
def clean_column_name (s : String) : String :=
  if s = "ResearchId" then s
  else ⟨(titleCase false (takeUntilSlash s.data)).filter (fun c => c ≠ ' ')⟩

/-- `clean_column_names`: apply `clean_column_name` to every column label. -/
def clean_column_names (df : DataFrame) : DataFrame :=
  { df with columns := df.columns.map clean_column_name }

/-! ### Numeric coercion (`pd.to_numeric(..., errors='coerce')`) -/

/-- Digits of a numeral to a natural number; `none` when empty or a
non-digit appears. -/
def digitsToNat : List Char → Option Nat
  | [] => none
  | l => l.foldl (fun acc c =>
      match acc with
      | none => none
      | some n => if c.isDigit then some (n * 10 + (c.toNat - 48)) else none)
      (some 0)

/-- Parse an unsigned decimal numeral, with an optional fractional part. -/
def parseUnsigned (l : List Char) : Option ℚ :=
  match l.splitOn '.' with
  | [w] => (digitsToNat w).map (fun n => (n : ℚ))
  | [w, f] =>
      match digitsToNat w, digitsToNat f with
      | some n, some m => some ((n : ℚ) + (m : ℚ) / (10 ^ f.length : ℚ))
      | _, _ => none
  | _ => none

/-- Numeric parse of a string, as performed by `pd.to_numeric`: optional
sign, digits, optional decimal point.  Unparseable strings give `none`. -/
def parseNum (s : String) : Option ℚ :=
  match s.data with
  | '-' :: rest => (parseUnsigned rest).map (fun q => -q)
  | '+' :: rest => parseUnsigned rest
  | l => parseUnsigned l

/-- `pd.to_numeric(cell, errors='coerce')`: numbers pass through, strings
are parsed (failures become null), null stays null. -/
def cellToNum : Cell → Option ℚ
  | .num q => some q
  | .str s => parseNum s
  | .null => none

/-- `df[col].replace('-', np.nan)` on one cell: the exact sentinel string
`"-"` becomes null, everything else is unchanged. -/
def replaceDash : Cell → Cell
  | .str "-" => .null
  | c => c

/-- One cell of `pd.to_numeric(df[col].replace('-', np.nan),
errors='coerce').fillna(0.0)`: the coercion applied by `process_dataframe`
to Grade/Q columns. -/
def coerceCell (c : Cell) : Cell :=
  .num ((cellToNum (replaceDash c)).getD 0)

/-- Column-selection rule of `process_dataframe`:
`'Grade' in col or col.startswith('Q')`. -/
def isGradeQ (c : String) : Bool :=
  listContains "Grade".data c.data || listPrefix "Q".data c.data

/-- The coercion loop of `process_dataframe` applied to one row: cells in
qualifying columns are coerced, all other cells are untouched. -/
def applyCoerce (cols : List String) (r : List Cell) : List Cell :=
  (cols.zip r).map (fun p => if isGradeQ p.1 then coerceCell p.2 else p.2)

/-- The coercion loop of `process_dataframe` over a whole frame. -/
def coerceFrame (df : DataFrame) : DataFrame :=
  { df with rows := df.rows.map (applyCoerce df.columns) }

/-! ### Deduplication (`drop_duplicate_research_ids`) -/

/-- Failures raised by pandas when a required column is absent
(`KeyError` from `sort_values(by='Grade')` resp.
`drop_duplicates(subset=['ResearchId'])`). -/
inductive SchemaError where
  | missingGrade : SchemaError
  | missingResearchId : SchemaError
deriving DecidableEq, Repr

/-- Sort key of a row for `sort_values(by='Grade', ascending=False)`:
the numeric Grade value, with null (NaN) as bottom so that it sorts last
in the descending order (pandas `na_position='last'`).  The frames this
runs on carry numeric-or-null Grade cells. -/
def gradeKey (c : Cell) : WithBot ℚ :=
  match c with
  | .num q => (q : WithBot ℚ)
  | _ => ⊥

/-- Sort key of a row: the grade cell at column position `g`. -/
def sortKey (g : Nat) (r : List Cell) : WithBot ℚ := gradeKey (cellAt g r)

/-- Descending insertion: `r` is placed after exactly the rows whose key is
strictly greater.  Note this makes the sort below stable (equal-key rows
keep their original order); the source's `sort_values` uses the default
`kind='quicksort'`, whose order among equal keys is *not* specified, so
the embedding fixes one concrete descending order and no theorem below
depends on the relative order of equal-grade rows. -/
def insertDesc (g : Nat) (r : List Cell) : List (List Cell) → List (List Cell)
  | [] => [r]
  | x :: xs =>
      if sortKey g r < sortKey g x then x :: insertDesc g r xs
      else r :: x :: xs

/-- `sort_values(by='Grade', ascending=False)`: sort by descending grade,
nulls last.  The tie order realised here (stable) is one of the orders
the source's default non-stable quicksort may produce; results proved
below hold independently of the tie order. -/
def sortDesc (g : Nat) : List (List Cell) → List (List Cell)
  | [] => []
  | x :: xs => insertDesc g x (sortDesc g xs)

/-- `drop_duplicates(subset=['ResearchId'], keep='first')`: keep the first
row for each distinct value of the cell at column position `i`. -/
def dropDupGo (i : Nat) (seen : List Cell) : List (List Cell) → List (List Cell)
  | [] => []
  | r :: rs =>
      if cellAt i r ∈ seen then dropDupGo i seen rs
      else r :: dropDupGo i (cellAt i r :: seen) rs

/-- Row order of `drop_duplicate_research_ids`: descending stable sort by
Grade, then first-kept deduplication on ResearchId. -/
def dedupeRows (g i : Nat) (rows : List (List Cell)) : List (List Cell) :=
  dropDupGo i [] (sortDesc g rows)

/-- `drop_duplicate_research_ids` (identical in `CWPreprocessing` and
`DAFunction`): sorts by `Grade` descending then drops duplicate
`ResearchId` rows keeping the first; missing columns raise (the sort's
`Grade` lookup fails first, then the duplicate subset's `ResearchId`). -/
def drop_duplicate_research_ids (df : DataFrame) : Except SchemaError DataFrame :=
  if "Grade" ∈ df.columns then
    if "ResearchId" ∈ df.columns then
      .ok { df with
            rows := dedupeRows (df.columns.indexOf "Grade")
                      (df.columns.indexOf "ResearchId") df.rows }
    else .error .missingResearchId
  else .error .missingGrade

instance : DecidableEq (Except SchemaError DataFrame) := fun a b =>
  match a, b with
  | .ok x, .ok y =>
      if h : x = y then isTrue (by rw [h])
      else isFalse (fun hc => h (Except.ok.inj hc))
  | .error e, .error f =>
      if h : e = f then isTrue (by rw [h])
      else isFalse (fun hc => h (Except.error.inj hc))
  | .ok _, .error _ => isFalse (fun hc => Except.noConfusion hc)
  | .error _, .ok _ => isFalse (fun hc => Except.noConfusion hc)

/-- `drop_unnecessary_columns`: remove the named columns (and the cells at
their positions) when present. -/
def drop_unnecessary_columns (df : DataFrame) (toDrop : List String) : DataFrame :=
  { columns := df.columns.filter (fun c => c ∉ toDrop)
    rows := df.rows.map (fun r =>
      ((df.columns.zip r).filter (fun p => p.1 ∉ toDrop)).map (fun p => p.2)) }

/-- `process_dataframe` (identical in `CWPreprocessing` and `DAFunction`):
clean column names, coerce Grade/Q columns (sentinel `-` → NaN, numeric
parse, `fillna(0.0)`), drop duplicate ResearchId rows, drop `State` and
`TimeTaken`.  Operates on a copy of its argument. -/
def process_dataframe (df : DataFrame) : Except SchemaError DataFrame :=
  match drop_duplicate_research_ids (coerceFrame (clean_column_names df)) with
  | .error e => .error e
  | .ok d => .ok (drop_unnecessary_columns d ["State", "TimeTaken"])

/-! ### Reference pipeline for the ordering claim -/

/-- Modelled from the spec: coercion *without* the zero fill — sentinel `-`
and parse failures become null and stay null ("coerce-to-null"). -/
def coerceCellNull (c : Cell) : Cell :=
  match cellToNum (replaceDash c) with
  | some q => .num q
  | none => .null

/-- Modelled from the spec: the coercion pass of the reference pipeline, in
which missing or unparseable Grade/Q values are still null afterwards. -/
def coerceFrameNull (df : DataFrame) : DataFrame :=
  { df with rows := df.rows.map (fun r =>
      (df.columns.zip r).map (fun p => if isGradeQ p.1 then coerceCellNull p.2 else p.2)) }

/-- Modelled from the spec: the final zero fill, replacing nulls in Grade/Q
columns by 0.0 only after deduplication. -/
def zeroFillFrame (df : DataFrame) : DataFrame :=
  { df with rows := df.rows.map (fun r =>
      (df.columns.zip r).map (fun p =>
        if isGradeQ p.1 ∧ p.2 = .null then Cell.num 0 else p.2)) }

/-- Modelled from the spec: the reference order of operations for
`TableProcessor.process` claimed by the spec — coerce-to-null, then
dedupe (nulls sorting last), then zero-fill. -/
def processRef (df : DataFrame) : Except SchemaError DataFrame :=
  match drop_duplicate_research_ids (coerceFrameNull (clean_column_names df)) with
  | .error e => .error e
  | .ok d => .ok (drop_unnecessary_columns (zeroFillFrame d) ["State", "TimeTaken"])

/-- The concrete table refuting C1: two rows for ResearchId 1, one with the
sentinel Grade `"-"`, one with Grade −5. -/
def counterTable : DataFrame :=
  ⟨["ResearchId", "Grade"], [[.num 1, .str "-"], [.num 1, .num (-5)]]⟩

/-! ### Grade standardisation (`standardise_grade`) -/

/-- Maximum of a list of rationals (`Series.max()` over a non-empty,
null-free column); 0 for the empty list, which the source never takes. -/
def maxQ : List ℚ → ℚ
  | [] => 0
  | x :: xs => xs.foldl max x

/-- The parsed numeric grades of a frame, in row order, at grade column
position `g` (rows whose grade does not parse contribute nothing — these
are exactly the rows `standardise_grade` drops). -/
def parsedGrades (g : Nat) (rows : List (List Cell)) : List ℚ :=
  rows.filterMap (fun r => cellToNum (cellAt g r))

/-- `df_copy['Grade'] = pd.to_numeric(df_copy['Grade'], errors='coerce')`:
rewrite the grade cell of each row to its parsed numeric value or null. -/
def coerceGradeCol (g : Nat) (rows : List (List Cell)) : List (List Cell) :=
  rows.map (fun r =>
    r.set g (match cellToNum (cellAt g r) with
             | some q => .num q
             | none => .null))

/-- `df_copy['Grade'] = (df_copy['Grade'] / max_grade) * 100` on one row. -/
def scaleRow (g : Nat) (m : ℚ) (r : List Cell) : List Cell :=
  r.set g (match cellAt g r with
           | .num q => .num (q / m * 100)
           | c => c)

/-- `standardise_grade` (identical in `CWPreprocessing` and `DAFunction`):
coerce `Grade` to numeric, drop null-grade rows, and rescale by
`(Grade / max) * 100`. -/
def standardise_grade (df : DataFrame) : DataFrame :=
  let g := df.columns.indexOf "Grade"
  let kept := (coerceGradeCol g df.rows).filter (fun r => cellAt g r ≠ .null)
  { df with rows := kept.map (scaleRow g (maxQ (parsedGrades g kept))) }

/-! ### Consolidated grade matrix (`underperformingStudent.create_dataframe`)

The SQL query unions the `ResearchId`s of the per-test tables and LEFT
JOINs each table's `Grade` on that id.  A stored per-test table row is an
id paired with its (REAL, non-null after processing) grade. -/

/-- One row of a stored per-test table: `(ResearchId, Grade)`. -/
structure SRow where
  id : ℤ
  grade : ℚ
deriving DecidableEq, Repr

/-- One row of the consolidated matrix: a `ResearchId` and one
`Grade_<Test>` cell per contributing table, in table order; a cell is
`none` exactly when the LEFT JOIN found no match. -/
structure MRow where
  id : ℤ
  cells : List (Option ℚ)
deriving DecidableEq, Repr

/-- `SELECT DISTINCT ResearchId FROM (... UNION ...)`: the deduplicated
ids occurring in any of the tables. -/
def unionIds (ts : List (List SRow)) : List ℤ :=
  ((ts.map (fun t => t.map SRow.id)).flatten).dedup

/-- One `LEFT JOIN t ON ResearchIds.ResearchId = t.ResearchId`: each
accumulated row is extended with the matching grades of `t`, or with a
null cell when `t` has no row for that id. -/
def leftJoinStep (acc : List MRow) (t : List SRow) : List MRow :=
  acc.flatMap (fun m =>
    match t.filter (fun s => s.id = m.id) with
    | [] => [⟨m.id, m.cells ++ [none]⟩]
    | ms => ms.map (fun s => ⟨m.id, m.cells ++ [some s.grade]⟩))

/-- `underperformingStudent.create_dataframe`: the union of ids, LEFT
JOINed with each per-test table in turn (the source instantiates `ts` with
the six tables `Test1 … Sumtest`; cell `j` is the `Grade_<Test j>`
column). -/
def create_dataframe (ts : List (List SRow)) : List MRow :=
  ts.foldl leftJoinStep ((unionIds ts).map (fun i => ⟨i, []⟩))

/-- The grade the LEFT JOIN associates to id `i` in table `t`: the first
matching row's grade, or null when `i` is absent. -/
def lookupGrade (i : ℤ) (t : List SRow) : Option ℚ :=
  (t.find? (fun s => s.id = i)).map SRow.grade

/-! ### Threshold filter (`underperformingStudent.drop_rows_above_threshold`) -/

/-- One comparison of `(df[gc] >= 1) & (df[gc] <= 49)`: true for a numeric
cell in the closed band, false otherwise (NaN comparisons are false). -/
def inBand (c : Cell) : Bool :=
  match c with
  | .num q => decide (1 ≤ q ∧ q ≤ 49)
  | _ => false

/-- Column positions selected by `df.filter(like='Grade')`: those whose
name contains the substring `Grade`. -/
def gradeIdxs (cols : List String) : List Nat :=
  (List.range cols.length).filter (fun j => listContains "Grade".data (cols.getD j "").data)

/-- How many grade-column cells of a row lie in `[1, 49]`
(`mask.sum(axis=1)`). -/
def bandCount (cols : List String) (r : List Cell) : Nat :=
  ((gradeIdxs cols).filter (fun j => inBand (cellAt j r))).length

/-- `underperformingStudent.drop_rows_above_threshold`: keep exactly the
rows with at least 3 grade-column values in `[1, 49]`. -/
def drop_rows_above_threshold (df : DataFrame) : DataFrame :=
  { df with rows := df.rows.filter (fun r => 3 ≤ bandCount df.columns r) }

/-! ### Aggregator (`studentPerformance.get_column_grade_and_average`) -/

/-- One row of a stored table as seen by the aggregator: the `ResearchId`
and the value of the queried column. -/
structure PRow where
  id : ℤ
  val : ℚ
deriving DecidableEq, Repr

/-- `AVG(CAST(column AS REAL))` over the whole table. -/
def listAvg (l : List ℚ) : ℚ := l.sum / l.length

/-- `studentPerformance.get_column_grade_and_average`: fetch the first row
matching the id (`fetchone`); if none, return `(None, None)`, else return
its column value together with the column's average over the whole
table. -/
def get_column_grade_and_average (t : List PRow) (researchId : ℤ) :
    Option ℚ × Option ℚ :=
  match t.find? (fun r => r.id = researchId) with
  | some r => (some r.val, some (listAvg (t.map PRow.val)))
  | none => (none, none)

/-! ### Heap model for the frame effect of `process_dataframe`

`process_dataframe` receives a reference to the caller's frame, makes a
copy (`df = df.copy()`), and every later step mutates only the copy
(in-place pandas calls or rebinding to a frame derived from the copy).
The heap maps references to frames; `processMut` performs the same steps
as `process_dataframe` through the heap, against working reference
`fresh`, the reference allocated for the copy. -/

/-- The heap: a total map from references to frames. -/
def Heap : Type := Nat → DataFrame

/-- Write a frame to a reference. -/
def setRef (h : Heap) (r : Nat) (d : DataFrame) : Heap :=
  fun x => if x = r then d else h x

/-- `sort_values(by='Grade', ascending=False, inplace=True)` as a frame
transformation (only applied when `Grade` exists). -/
def sortFrame (df : DataFrame) : DataFrame :=
  { df with rows := sortDesc (df.columns.indexOf "Grade") df.rows }

/-- `drop_duplicates(subset=['ResearchId'], keep='first', inplace=True)`
as a frame transformation (only applied when `ResearchId` exists). -/
def dropDupFrame (df : DataFrame) : DataFrame :=
  { df with rows := dropDupGo (df.columns.indexOf "ResearchId") [] df.rows }

/-- `process_dataframe` acting on the heap: the caller's frame is at `r`;
the first statement copies it to the fresh reference `fresh`, and every
subsequent mutation targets `fresh`.  Returns the call's result and the
heap after the call (also in the exceptional cases, where the `KeyError`
propagates to the caller). -/
def processMut (h : Heap) (r fresh : Nat) : Except SchemaError DataFrame × Heap :=
  let h1 := setRef h fresh (h r)
  let h2 := setRef h1 fresh (clean_column_names (h1 fresh))
  let h3 := setRef h2 fresh (coerceFrame (h2 fresh))
  if "Grade" ∈ (h3 fresh).columns then
    let h4 := setRef h3 fresh (sortFrame (h3 fresh))
    if "ResearchId" ∈ (h4 fresh).columns then
      let h5 := setRef h4 fresh (dropDupFrame (h4 fresh))
      let h6 := setRef h5 fresh (drop_unnecessary_columns (h5 fresh) ["State", "TimeTaken"])
      (.ok (h6 fresh), h6)
    else (.error .missingResearchId, h4)
  else (.error .missingGrade, h3)

/-! ## Helper lemmas -/

theorem ofNat_toNat_of_valid {n : Nat} (h : n < 0xd800) : (Char.ofNat n).toNat = n := by
  simp only [Char.ofNat, dif_pos (Or.inl h : n.isValidChar)]
  rfl

theorem toLower_ne_slash (c : Char) (h : c ≠ '/') : c.toLower ≠ '/' := by
  unfold Char.toLower
  dsimp only
  split
  · rename_i hc
    intro hEq
    have h1 : (Char.ofNat (c.toNat + 32)).toNat = c.toNat + 32 :=
      ofNat_toNat_of_valid (by omega)
    rw [hEq] at h1
    have h2 : ('/' : Char).toNat = 47 := by decide
    omega
  · exact h

theorem toUpper_ne_slash (c : Char) (h : c ≠ '/') : c.toUpper ≠ '/' := by
  unfold Char.toUpper
  dsimp only
  split
  · rename_i hc
    intro hEq
    have h1 : (Char.ofNat (c.toNat - 32)).toNat = c.toNat - 32 :=
      ofNat_toNat_of_valid (by omega)
    rw [hEq] at h1
    have h2 : ('/' : Char).toNat = 47 := by decide
    omega
  · exact h

theorem titleChar_ne_slash (p : Bool) (c : Char) (h : c ≠ '/') : titleChar p c ≠ '/' := by
  unfold titleChar
  split
  · split
    · exact toLower_ne_slash c h
    · exact toUpper_ne_slash c h
  · exact h

theorem slash_not_mem_takeUntilSlash (l : List Char) : '/' ∉ takeUntilSlash l := by
  induction l with
  | nil => simp [takeUntilSlash]
  | cons c cs ih =>
      by_cases hc : c = '/'
      · simp [takeUntilSlash, hc]
      · simp only [takeUntilSlash, if_neg hc, List.mem_cons]
        rintro (h | h)
        · exact hc h.symm
        · exact ih h

theorem slash_not_mem_titleCase (p : Bool) (l : List Char) (h : '/' ∉ l) :
    '/' ∉ titleCase p l := by
  induction l generalizing p with
  | nil => simp [titleCase]
  | cons c cs ih =>
      simp only [titleCase, List.mem_cons]
      simp only [List.mem_cons, not_or] at h
      rintro (hEq | hMem)
      · exact titleChar_ne_slash p c (fun hc => h.1 hc.symm) hEq.symm
      · exact ih c.isAlpha h.2 hMem

/-! ## Claim theorems -/

/-- **C9.** `clean_column_name` keeps `"ResearchId"` unchanged; any other
name is truncated at the first `/`, title-cased per word, and stripped of
spaces — hence its result contains no space and no `/` — and
`clean_column_name "test column" = "TestColumn"`,
`clean_column_name "multi/word column" = "Multi"`. -/
theorem C9_normalize :
    clean_column_name "ResearchId" = "ResearchId" ∧
    clean_column_name "test column" = "TestColumn" ∧
    clean_column_name "multi/word column" = "Multi" ∧
    ∀ s : String, s ≠ "ResearchId" →
      clean_column_name s =
        ⟨(titleCase false (takeUntilSlash s.data)).filter (fun c => c ≠ ' ')⟩ ∧
      ' ' ∉ (clean_column_name s).data ∧ '/' ∉ (clean_column_name s).data := by
  refine ⟨by decide, by decide, by decide, fun s hs => ?_⟩
  have hdef : clean_column_name s =
      ⟨(titleCase false (takeUntilSlash s.data)).filter (fun c => c ≠ ' ')⟩ := by
    unfold clean_column_name
    rw [if_neg hs]
  refine ⟨hdef, ?_, ?_⟩
  · rw [hdef]
    intro hmem
    have := (List.mem_filter.mp hmem).2
    simp at this
  · rw [hdef]
    intro hmem
    exact slash_not_mem_titleCase false _ (slash_not_mem_takeUntilSlash s.data)
      (List.mem_filter.mp hmem).1

/-- Witness for C9 at the concrete name `"test column"`. -/
theorem C9_normalize_witness :
    ' ' ∉ (clean_column_name "test column").data ∧
    '/' ∉ (clean_column_name "test column").data :=
  (C9_normalize.2.2.2 "test column" (by decide)).2

/-- **C5.** `drop_rows_above_threshold` keeps a row iff at least 3 of its
grade-column values lie in the closed interval `[1, 49]` (the source fixes
`lowBound = 1`, `highBound = 49`, `minCount = 3`); in particular a table
whose only row has grade columns `[50, 55, 60]` filters to the empty
result. -/
theorem C5_flagLowPerformers :
    (∀ (df : DataFrame) (r : List Cell),
        r ∈ (drop_rows_above_threshold df).rows ↔
          r ∈ df.rows ∧ 3 ≤ bandCount df.columns r) ∧
    (drop_rows_above_threshold
        ⟨["Grade_Test1", "Grade_Test2", "Grade_Test3"],
         [[.num 50, .num 55, .num 60]]⟩).rows = [] := by
  constructor
  · intro df r
    simp [drop_rows_above_threshold, List.mem_filter]
  · decide

/-- **C8.** `get_column_grade_and_average` returns `(None, None)` when no
record matches the id, and otherwise the (unique) matching record's column
value together with the arithmetic mean of the column over the whole
table; for id 1 on the 3-row table with values `[80, 90, 75]` where id 1
holds 80 it returns `(80, 245/3)` (= 81.666…). -/
theorem C8_gradeAndAverage :
    (∀ (t : List PRow) (i : ℤ), (¬ ∃ r ∈ t, r.id = i) →
        get_column_grade_and_average t i = (none, none)) ∧
    (∀ (t : List PRow) (i : ℤ) (r : PRow), r ∈ t → r.id = i →
        (∀ r' ∈ t, r'.id = i → r' = r) →
        get_column_grade_and_average t i =
          (some r.val, some (listAvg (t.map PRow.val)))) ∧
    get_column_grade_and_average [⟨1, 80⟩, ⟨2, 90⟩, ⟨3, 75⟩] 1 =
      (some 80, some (245 / 3)) := by
  refine ⟨?_, ?_, ?_⟩
  case refine_3 =>
    show _ = _
    norm_num [get_column_grade_and_average, List.find?, listAvg]
  · intro t i h
    have hnone : t.find? (fun r => r.id = i) = none := by
      rw [List.find?_eq_none]
      intro x hx
      simp only [decide_eq_true_eq]
      exact fun hxi => h ⟨x, hx, hxi⟩
    simp [get_column_grade_and_average, hnone]
  · intro t i r hr hri huniq
    have hsome : ∃ r₀, t.find? (fun r' => r'.id = i) = some r₀ := by
      have : (t.find? (fun r' => r'.id = i)).isSome := by
        rw [List.find?_isSome]
        exact ⟨r, hr, by simpa using hri⟩
      exact Option.isSome_iff_exists.mp this
    obtain ⟨r₀, h₀⟩ := hsome
    have hmem := List.mem_of_find?_eq_some h₀
    have hid : r₀.id = i := by simpa using List.find?_some h₀
    have : r₀ = r := huniq r₀ hmem hid
    simp [get_column_grade_and_average, h₀, this]

/-- Witness for C8: no-match and unique-match cases at concrete tables. -/
theorem C8_gradeAndAverage_witness :
    get_column_grade_and_average [] 1 = (none, none) ∧
    get_column_grade_and_average [⟨1, 80⟩] 1 = (some 80, some 80) := by
  constructor
  · exact C8_gradeAndAverage.1 [] 1 (by simp)
  · have h := C8_gradeAndAverage.2.1 [⟨1, 80⟩] 1 ⟨1, 80⟩ (by simp) rfl
      (by intro r' hr' _; simpa using hr')
    simpa [listAvg] using h

theorem zip_map_zip_map (cols : List String) (r : List Cell)
    (f g : String × Cell → Cell) :
    (cols.zip ((cols.zip r).map (fun p => f p))).map (fun p => g p) =
      (cols.zip r).map (fun p => g (p.1, f p)) := by
  induction cols generalizing r with
  | nil => simp
  | cons c cs ih =>
      cases r with
      | nil => simp
      | cons x xs => simp [ih]

theorem zeroFill_coerceNull_eq_coerce (df : DataFrame) :
    zeroFillFrame (coerceFrameNull df) = coerceFrame df := by
  unfold zeroFillFrame coerceFrameNull coerceFrame applyCoerce
  congr 1
  rw [List.map_map]
  apply List.map_congr_left
  intro r _
  simp only [Function.comp_apply]
  rw [zip_map_zip_map]
  apply List.map_congr_left
  intro p _
  by_cases hq : isGradeQ p.1
  · simp only [hq, if_true]
    unfold coerceCellNull coerceCell
    cases hc : cellToNum (replaceDash p.2) with
    | none => simp
    | some q =>
        simp only [Option.getD_some]
        rw [if_neg]
        simp
  · simp [hq]

/-- **C1, counterexample.** On `counterTable` the implemented pipeline
zero-fills the sentinel Grade *before* deduplication, so the filled row
(grade 0.0) outsorts the −5 row and is retained; the reference order
coerce-to-null → dedupe → zero-fill keeps the −5 row instead (nulls sort
last).  The two pipelines disagree, refuting the claim that they are
equal. -/
theorem C1_counterexample :
    process_dataframe counterTable =
      .ok ⟨["ResearchId", "Grade"], [[.num 1, .num 0]]⟩ ∧
    processRef counterTable =
      .ok ⟨["ResearchId", "Grade"], [[.num 1, .num (-5)]]⟩ ∧
    (⟨["ResearchId", "Grade"], [[.num 1, .num 0]]⟩ : DataFrame) ≠
      ⟨["ResearchId", "Grade"], [[.num 1, .num (-5)]]⟩ :=
  ⟨by decide, by decide, by decide⟩

/-- **C1, amended.** In `process_dataframe`, missing or unparseable Grade
values are replaced by 0.0 *during* coercion, before deduplication runs
(so such rows sort as grade 0.0, not as nulls-last), and the implemented
pipeline equals the reference order coerce-to-null → zero-fill → dedupe →
drop-columns: the zero fill precedes deduplication. -/
theorem C1_amended (df : DataFrame) :
    zeroFillFrame (coerceFrameNull (clean_column_names df)) =
      coerceFrame (clean_column_names df) ∧
    process_dataframe df =
      match drop_duplicate_research_ids
          (zeroFillFrame (coerceFrameNull (clean_column_names df))) with
      | .error e => .error e
      | .ok d => .ok (drop_unnecessary_columns d ["State", "TimeTaken"]) := by
  refine ⟨zeroFill_coerceNull_eq_coerce _, ?_⟩
  rw [zeroFill_coerceNull_eq_coerce]
  rfl

theorem cellAt_applyCoerce (cols : List String) (r : List Cell) (j : Nat)
    (hj : j < cols.length) (hr : r.length = cols.length) :
    cellAt j (applyCoerce cols r) =
      if isGradeQ (cols.getD j "") then coerceCell (cellAt j r)
      else cellAt j r := by
  induction cols generalizing r j with
  | nil => simp at hj
  | cons c cs ih =>
      cases r with
      | nil => simp at hr
      | cons x xs =>
          cases j with
          | zero => simp [applyCoerce, cellAt]
          | succ k =>
              have hk : k < cs.length := by simpa using hj
              have hx : xs.length = cs.length := by simpa using hr
              simpa [applyCoerce, cellAt] using ih xs k hk hx

/-- **C7.** After the coercion loop of `process_dataframe`, every cell of
a column whose normalized name contains `Grade` or starts with `Q` (and
only those columns are touched) is numeric: never null, never the
sentinel `"-"`, with sentinel, missing, and unparseable cells all mapped
to 0.0.  (`cs` abbreviates the normalized column names; the frame the
loop produces is exactly `df.rows.map (applyCoerce cs)`.) -/
theorem C7_coerce (df : DataFrame)
    (hw : ∀ r ∈ df.rows, r.length = df.columns.length) :
    (coerceFrame (clean_column_names df)).rows =
      df.rows.map (applyCoerce (df.columns.map clean_column_name)) ∧
    ∀ r ∈ df.rows, ∀ j, j < df.columns.length →
      let cs := df.columns.map clean_column_name
      (isGradeQ (cs.getD j "") →
        (∃ q, cellAt j (applyCoerce cs r) = .num q) ∧
        cellAt j (applyCoerce cs r) ≠ .null ∧
        cellAt j (applyCoerce cs r) ≠ .str "-" ∧
        ((cellAt j r = .str "-" ∨ cellAt j r = .null ∨
            cellToNum (cellAt j r) = none) →
          cellAt j (applyCoerce cs r) = .num 0)) ∧
      (¬ isGradeQ (cs.getD j "") →
        cellAt j (applyCoerce cs r) = cellAt j r) := by
  constructor
  · rfl
  · intro r hr j hj
    intro cs
    have hjc : j < cs.length := by simpa [cs] using hj
    have hrc : r.length = cs.length := by simpa [cs] using hw r hr
    have hbase := cellAt_applyCoerce cs r j hjc hrc
    constructor
    · intro hsel
      rw [hbase, if_pos hsel]
      refine ⟨⟨(cellToNum (replaceDash (cellAt j r))).getD 0, rfl⟩, by simp [coerceCell],
        by simp [coerceCell], ?_⟩
      rintro (h | h | h)
      · rw [h]; rfl
      · rw [h]; rfl
      · unfold coerceCell
        cases hc : cellAt j r with
        | null => rfl
        | num q => rw [hc] at h; simp [cellToNum] at h
        | str s =>
            by_cases hs : s = "-"
            · rw [hs]; rfl
            · rw [hc] at h
              simp only [cellToNum] at h
              simp [replaceDash, hs, cellToNum, h]
    · intro hsel
      rw [hbase, if_neg hsel]

/-- Witness for C7 at a concrete frame with sentinel, missing, numeric and
unparseable Grade cells. -/
theorem C7_coerce_witness :
    ∃ q, cellAt 1 (applyCoerce
        (["ResearchId", "Grade"].map clean_column_name)
        [Cell.num 1, Cell.str "-"]) = .num q := by
  have h := (C7_coerce ⟨["ResearchId", "Grade"], [[.num 1, .str "-"]]⟩
      (by intro r hr; simp at hr; simp [hr])).2
      [Cell.num 1, Cell.str "-"] (by simp) 1 (by simp)
  exact (h.1 (by decide)).1

theorem dedupe_error_of_missing (df : DataFrame)
    (h : "ResearchId" ∉ df.columns ∨ "Grade" ∉ df.columns) :
    ∃ e, drop_duplicate_research_ids df = .error e := by
  unfold drop_duplicate_research_ids
  rcases h with h | h
  · by_cases hg : "Grade" ∈ df.columns
    · rw [if_pos hg, if_neg h]
      exact ⟨_, rfl⟩
    · rw [if_neg hg]
      exact ⟨_, rfl⟩
  · rw [if_neg h]
    exact ⟨_, rfl⟩

/-- **C3.** A table lacking a `ResearchId` column or lacking a `Grade`
column makes `drop_duplicate_research_ids` fail with a schema error, and
`process_dataframe` (which deduplicates after normalizing the column
names, so its requirement is on the normalized names — the literals
`"ResearchId"` and `"Grade"` are fixed points of the normalization)
propagates that failure to the caller with no partial output: the result
carries no frame at all. -/
theorem C3_schemaError (df : DataFrame) :
    (("ResearchId" ∉ df.columns ∨ "Grade" ∉ df.columns) →
      ∃ e, drop_duplicate_research_ids df = .error e) ∧
    (("ResearchId" ∉ df.columns.map clean_column_name ∨
        "Grade" ∉ df.columns.map clean_column_name) →
      ∃ e, process_dataframe df = .error e) := by
  refine ⟨dedupe_error_of_missing df, fun h => ?_⟩
  have hcols : (coerceFrame (clean_column_names df)).columns =
      df.columns.map clean_column_name := rfl
  obtain ⟨e, he⟩ :=
    dedupe_error_of_missing (coerceFrame (clean_column_names df)) (by rw [hcols]; exact h)
  refine ⟨e, ?_⟩
  unfold process_dataframe
  rw [he]

/-- Witness for C3 at a table with neither required column. -/
theorem C3_schemaError_witness :
    (∃ e, drop_duplicate_research_ids ⟨["Foo"], []⟩ = .error e) ∧
    ∃ e, process_dataframe ⟨["Foo"], []⟩ = .error e :=
  ⟨(C3_schemaError ⟨["Foo"], []⟩).1 (by decide),
   (C3_schemaError ⟨["Foo"], []⟩).2 (by decide)⟩

/-! ## Lemmas for grade standardisation (C6) -/

theorem le_foldl_max (xs : List ℚ) (a : ℚ) : a ≤ xs.foldl max a := by
  induction xs generalizing a with
  | nil => simp
  | cons x xs ih => exact le_trans (le_max_left a x) (ih (max a x))

theorem mem_le_foldl_max (xs : List ℚ) (a : ℚ) (x : ℚ) (hx : x ∈ xs) :
    x ≤ xs.foldl max a := by
  induction xs generalizing a with
  | nil => simp at hx
  | cons y ys ih =>
      rcases List.mem_cons.mp hx with h | h
      · subst h
        exact le_trans (le_max_right a x) (le_foldl_max ys (max a x))
      · exact ih (max a y) h

theorem foldl_max_mem (xs : List ℚ) (a : ℚ) : xs.foldl max a ∈ a :: xs := by
  induction xs generalizing a with
  | nil => simp
  | cons x xs ih =>
      simp only [List.foldl_cons]
      rcases List.mem_cons.mp (ih (max a x)) with h | h
      · rcases max_choice a x with hm | hm <;> rw [h, hm]
        · exact List.mem_cons_self _ _
        · exact List.mem_cons_of_mem _ (List.mem_cons_self _ _)
      · exact List.mem_cons_of_mem _ (List.mem_cons_of_mem _ h)

theorem maxQ_mem (l : List ℚ) (h : l ≠ []) : maxQ l ∈ l := by
  cases l with
  | nil => exact absurd rfl h
  | cons x xs => exact foldl_max_mem xs x

theorem le_maxQ (l : List ℚ) (x : ℚ) (hx : x ∈ l) : x ≤ maxQ l := by
  cases l with
  | nil => simp at hx
  | cons y ys =>
      rcases List.mem_cons.mp hx with h | h
      · subst h
        exact le_foldl_max ys x
      · exact mem_le_foldl_max ys y x h

theorem foldl_max_map (f : ℚ → ℚ) (hf : ∀ a b, f (max a b) = max (f a) (f b))
    (xs : List ℚ) (a : ℚ) : (xs.map f).foldl max (f a) = f (xs.foldl max a) := by
  induction xs generalizing a with
  | nil => simp
  | cons x xs ih =>
      simp only [List.map_cons, List.foldl_cons, ← hf a x]
      exact ih (max a x)

theorem maxQ_map_scale (l : List ℚ) (h : l ≠ []) (m : ℚ) (hm : 0 < m) :
    maxQ (l.map (fun q => q / m * 100)) = maxQ l / m * 100 := by
  cases l with
  | nil => exact absurd rfl h
  | cons x xs =>
      have hf : ∀ a b : ℚ, max a b / m * 100 = max (a / m * 100) (b / m * 100) := by
        intro a b
        rcases le_total a b with hab | hab
        · rw [max_eq_right hab, max_eq_right]
          exact mul_le_mul_of_nonneg_right ((div_le_div_iff_of_pos_right hm).mpr hab)
            (by norm_num)
        · rw [max_eq_left hab, max_eq_left]
          exact mul_le_mul_of_nonneg_right ((div_le_div_iff_of_pos_right hm).mpr hab)
            (by norm_num)
      exact foldl_max_map (fun q => q / m * 100) hf xs x

theorem cellAt_lt_length_of_ne_null {j : Nat} {r : List Cell}
    (h : cellAt j r ≠ .null) : j < r.length := by
  by_contra hc
  apply h
  unfold cellAt
  rw [List.getD_eq_getElem?_getD, List.getElem?_eq_none (by omega)]
  rfl

theorem cellAt_set_self (r : List Cell) (j : Nat) (c : Cell) (h : j < r.length) :
    cellAt j (r.set j c) = c := by
  unfold cellAt
  rw [List.getD_eq_getElem?_getD, List.getElem?_set_self (by simpa using h)]
  rfl

theorem parsedGrades_coerceGradeCol (g : Nat) (rows : List (List Cell)) :
    parsedGrades g (coerceGradeCol g rows) = parsedGrades g rows := by
  unfold parsedGrades coerceGradeCol
  rw [List.filterMap_map]
  congr 1
  funext r
  simp only [Function.comp_apply]
  by_cases hj : g < r.length
  · rw [cellAt_set_self r g _ hj]
    cases hc : cellToNum (cellAt g r) with
    | none => simp [cellToNum]
    | some q => simp [cellToNum]
  · rw [List.set_eq_of_length_le (by omega)]

theorem parsedGrades_filter_notnull (g : Nat) (l : List (List Cell)) :
    parsedGrades g (l.filter (fun r => cellAt g r ≠ .null)) = parsedGrades g l := by
  induction l with
  | nil => rfl
  | cons r rs ih =>
      unfold parsedGrades at ih ⊢
      rw [List.filter_cons]
      by_cases hr : cellAt g r = Cell.null
      · have hc : cellToNum (cellAt g r) = none := by rw [hr]; rfl
        rw [if_neg (by simp [hr])]
        simp only [List.filterMap_cons, hc]
        exact ih
      · rw [if_pos (by simp [hr])]
        simp only [List.filterMap_cons]
        rw [ih]

theorem kept_cell_num (g : Nat) (rows : List (List Cell)) (r : List Cell)
    (hr : r ∈ (coerceGradeCol g rows).filter (fun r => cellAt g r ≠ .null)) :
    ∃ q, cellAt g r = .num q := by
  obtain ⟨hmem, hnn⟩ := List.mem_filter.mp hr
  have hnn' : cellAt g r ≠ .null := by simpa using hnn
  obtain ⟨r₀, _, hr₀⟩ := List.mem_map.mp hmem
  subst hr₀
  by_cases hj : g < r₀.length
  · rw [cellAt_set_self r₀ g _ hj] at hnn' ⊢
    cases hc : cellToNum (cellAt g r₀) with
    | none => rw [hc] at hnn'; exact absurd rfl hnn'
    | some q => exact ⟨q, rfl⟩
  · rw [List.set_eq_of_length_le (by omega)] at hnn' ⊢
    exact absurd (by
      unfold cellAt
      rw [List.getD_eq_getElem?_getD, List.getElem?_eq_none (by omega)]
      rfl) hnn'

theorem parsedGrades_scale (g : Nat) (m : ℚ) (l : List (List Cell))
    (h : ∀ r ∈ l, ∃ q, cellAt g r = .num q) :
    parsedGrades g (l.map (scaleRow g m)) =
      (parsedGrades g l).map (fun q => q / m * 100) := by
  induction l with
  | nil => rfl
  | cons r rs ih =>
      obtain ⟨q, hq⟩ := h r (List.mem_cons_self _ _)
      have hlt : g < r.length := cellAt_lt_length_of_ne_null (by rw [hq]; simp)
      have hcell : cellAt g (scaleRow g m r) = .num (q / m * 100) := by
        unfold scaleRow
        rw [hq, cellAt_set_self r g _ hlt]
      have hcnum : cellToNum (cellAt g (scaleRow g m r)) = some (q / m * 100) := by
        rw [hcell]; rfl
      have hcnum0 : cellToNum (cellAt g r) = some q := by rw [hq]; rfl
      simp only [parsedGrades, List.map_cons, List.filterMap_cons, hcnum, hcnum0] at ih ⊢
      rw [ih (fun x hx => h x (List.mem_cons_of_mem _ hx))]

/-- **C6.** When the input's `Grade` column has at least one parseable
grade and their maximum is strictly positive, `standardise_grade` drops
the null-grade rows (every surviving grade cell is numeric), rescales each
grade by `(Grade / max) * 100`, and the maximum of the output `Grade`
column equals exactly 100. -/
theorem C6_standardize (df : DataFrame)
    (hne : parsedGrades (df.columns.indexOf "Grade") df.rows ≠ [])
    (hpos : 0 < maxQ (parsedGrades (df.columns.indexOf "Grade") df.rows)) :
    (∀ r ∈ (standardise_grade df).rows,
        ∃ q, cellAt (df.columns.indexOf "Grade") r = .num q) ∧
    parsedGrades (df.columns.indexOf "Grade") (standardise_grade df).rows =
      (parsedGrades (df.columns.indexOf "Grade") df.rows).map
        (fun q => q / maxQ (parsedGrades (df.columns.indexOf "Grade") df.rows) * 100) ∧
    maxQ (parsedGrades (df.columns.indexOf "Grade") (standardise_grade df).rows)
      = 100 := by
  set g := df.columns.indexOf "Grade" with hg
  set kept := (coerceGradeCol g df.rows).filter (fun r => cellAt g r ≠ .null) with hkept
  have hparsed : parsedGrades g kept = parsedGrades g df.rows := by
    rw [hkept, parsedGrades_filter_notnull, parsedGrades_coerceGradeCol]
  have hknum : ∀ r ∈ kept, ∃ q, cellAt g r = .num q :=
    fun r hr => kept_cell_num g df.rows r hr
  have hrows : (standardise_grade df).rows =
      kept.map (scaleRow g (maxQ (parsedGrades g kept))) := rfl
  have hscale := parsedGrades_scale g (maxQ (parsedGrades g kept)) kept hknum
  refine ⟨?_, ?_, ?_⟩
  · intro r hr
    rw [hrows] at hr
    obtain ⟨r₀, hr₀, hrr⟩ := List.mem_map.mp hr
    obtain ⟨q, hq⟩ := hknum r₀ hr₀
    have hlt : g < r₀.length := cellAt_lt_length_of_ne_null (by rw [hq]; simp)
    subst hrr
    refine ⟨q / maxQ (parsedGrades g kept) * 100, ?_⟩
    unfold scaleRow
    rw [hq, cellAt_set_self r₀ g _ hlt]
  · rw [hrows, hscale, hparsed]
  · rw [hrows, hscale, hparsed]
    rw [maxQ_map_scale _ hne _ hpos]
    rw [div_self (ne_of_gt hpos)]
    norm_num

/-- Witness for C6 at the test table with grades 50, 100, 75. -/
theorem C6_standardize_witness :
    maxQ (parsedGrades ((["Grade"] : List String).indexOf "Grade")
      (standardise_grade ⟨["Grade"], [[.num 50], [.num 100], [.num 75]]⟩).rows)
      = 100 := by
  have h := (C6_standardize ⟨["Grade"], [[.num 50], [.num 100], [.num 75]]⟩
      (by decide) (by decide)).2.2
  exact h

/-! ## Lemmas for the consolidated matrix (C4) -/

theorem filter_id_of_nodup (t : List SRow) (hnd : (t.map SRow.id).Nodup) (i : ℤ) :
    t.filter (fun s => s.id = i) =
      match t.find? (fun s => s.id = i) with
      | none => []
      | some s => [s] := by
  induction t with
  | nil => rfl
  | cons s rest ih =>
      simp only [List.map_cons, List.nodup_cons] at hnd
      by_cases hsi : s.id = i
      · have hrest : rest.filter (fun x => x.id = i) = [] := by
          rw [List.filter_eq_nil_iff]
          intro x hx
          simp only [decide_eq_true_eq]
          intro hxi
          exact hnd.1 (by
            rw [List.mem_map]
            exact ⟨x, hx, by rw [hxi, hsi]⟩)
        rw [List.filter_cons, if_pos (by simpa using hsi), hrest,
          List.find?_cons_of_pos _ (by simpa using hsi)]
      · rw [List.filter_cons, if_neg (by simpa using hsi),
          List.find?_cons_of_neg _ (by simpa using hsi)]
        exact ih hnd.2

theorem leftJoinStep_eq_map (acc : List MRow) (t : List SRow)
    (hnd : (t.map SRow.id).Nodup) :
    leftJoinStep acc t =
      acc.map (fun m => ⟨m.id, m.cells ++ [lookupGrade m.id t]⟩) := by
  induction acc with
  | nil => rfl
  | cons m ms ih =>
      unfold leftJoinStep at ih ⊢
      rw [List.flatMap_cons, List.map_cons, ih]
      rw [filter_id_of_nodup t hnd m.id]
      unfold lookupGrade
      cases hf : t.find? (fun s => s.id = m.id) with
      | none => rfl
      | some s => rfl

theorem create_foldl (ts : List (List SRow))
    (hnd : ∀ t ∈ ts, (t.map SRow.id).Nodup) (acc : List MRow) :
    ts.foldl leftJoinStep acc =
      acc.map (fun m => ⟨m.id, m.cells ++ ts.map (lookupGrade m.id)⟩) := by
  induction ts generalizing acc with
  | nil => simp
  | cons t ts' ih =>
      rw [List.foldl_cons,
        ih (fun x hx => hnd x (List.mem_cons_of_mem _ hx)),
        leftJoinStep_eq_map acc t (hnd t (List.mem_cons_self _ _)),
        List.map_map]
      apply List.map_congr_left
      intro m _
      simp

theorem create_dataframe_closed (ts : List (List SRow))
    (hnd : ∀ t ∈ ts, (t.map SRow.id).Nodup) :
    create_dataframe ts =
      (unionIds ts).map (fun i => ⟨i, ts.map (lookupGrade i)⟩) := by
  unfold create_dataframe
  rw [create_foldl ts hnd, List.map_map]
  apply List.map_congr_left
  intro i _
  simp

/-- **C4.** For per-test tables with at most one row per `ResearchId`, the
consolidated matrix has exactly the union of the tables' ids (each id
once), and the `Grade_<Test j>` cell (cell `j`) of a row is null iff that
row's id is absent from table `j`. -/
theorem C4_matrix (ts : List (List SRow))
    (hnd : ∀ t ∈ ts, (t.map SRow.id).Nodup) :
    ((create_dataframe ts).map MRow.id).Nodup ∧
    (∀ i : ℤ, (∃ m ∈ create_dataframe ts, m.id = i) ↔
        ∃ t ∈ ts, ∃ s ∈ t, s.id = i) ∧
    ∀ m ∈ create_dataframe ts, m.cells.length = ts.length ∧
      ∀ j, j < ts.length →
        (m.cells.getD j none = none ↔ ∀ s ∈ ts.getD j [], s.id ≠ m.id) := by
  have hclosed := create_dataframe_closed ts hnd
  refine ⟨?_, ?_, ?_⟩
  · rw [hclosed, List.map_map]
    have : (MRow.id ∘ fun i => (⟨i, ts.map (lookupGrade i)⟩ : MRow)) = id := by
      funext i
      rfl
    rw [this, List.map_id]
    exact (List.nodup_dedup _)
  · intro i
    rw [hclosed]
    constructor
    · rintro ⟨m, hm, hmi⟩
      obtain ⟨i₀, hi₀, hmi₀⟩ := List.mem_map.mp hm
      have : i₀ = i := by rw [← hmi, ← hmi₀]
      subst this
      have := List.mem_dedup.mp hi₀
      obtain ⟨l, hl, hil⟩ := List.mem_flatten.mp this
      obtain ⟨t, ht, hlt⟩ := List.mem_map.mp hl
      subst hlt
      obtain ⟨s, hs, hsi⟩ := List.mem_map.mp hil
      exact ⟨t, ht, s, hs, hsi⟩
    · rintro ⟨t, ht, s, hs, hsi⟩
      refine ⟨⟨i, ts.map (lookupGrade i)⟩, ?_, rfl⟩
      apply List.mem_map_of_mem
      unfold unionIds
      rw [List.mem_dedup]
      apply List.mem_flatten.mpr
      exact ⟨t.map SRow.id, List.mem_map_of_mem _ ht,
        by rw [← hsi]; exact List.mem_map_of_mem _ hs⟩
  · intro m hm
    rw [hclosed] at hm
    obtain ⟨i₀, _, hmi₀⟩ := List.mem_map.mp hm
    subst hmi₀
    refine ⟨by simp, ?_⟩
    intro j hj
    have hget : (ts.map (lookupGrade i₀)).getD j none =
        lookupGrade i₀ (ts.getD j []) := by
      rw [List.getD_eq_getElem?_getD, List.getElem?_map,
        List.getD_eq_getElem?_getD, List.getElem?_eq_getElem (by simpa using hj)]
      rfl
    show (ts.map (lookupGrade i₀)).getD j none = none ↔ _
    rw [hget]
    unfold lookupGrade
    rw [Option.map_eq_none', List.find?_eq_none]
    constructor
    · intro h s hs hsi
      have h' := h s hs
      simp only [decide_eq_true_eq] at h'
      exact h' hsi
    · intro h s hs
      simp only [decide_eq_true_eq]
      exact h s hs

/-- Witness for C4 at two concrete one-row tables with ids 1 and 2. -/
theorem C4_matrix_witness :
    ((create_dataframe [[⟨1, 80⟩], [⟨2, 60⟩]]).map MRow.id).Nodup :=
  (C4_matrix [[⟨1, 80⟩], [⟨2, 60⟩]]
    (by intro t ht; fin_cases ht <;> decide)).1

/-! ## Frame effect of `process_dataframe` (C10) -/

theorem setRef_self (h : Heap) (f : Nat) (d : DataFrame) : setRef h f d f = d := by
  unfold setRef
  rw [if_pos rfl]

theorem setRef_ne (h : Heap) (f : Nat) (d : DataFrame) (r : Nat) (hne : r ≠ f) :
    setRef h f d r = h r := by
  unfold setRef
  rw [if_neg hne]

/-- **C10.** `process_dataframe` leaves the caller's table unchanged: run
through the reference heap, with the caller's frame at `r` and the fresh
reference `fresh` allocated by `df.copy()`, the heap still maps `r` to the
original frame after the call (on every path, including the failing ones),
and the returned value is the pure function of the original frame — a
fresh table, not an alias of the input. -/
theorem C10_frame_effect (h : Heap) (r fresh : Nat) (hne : r ≠ fresh) :
    (processMut h r fresh).2 r = h r ∧
    (processMut h r fresh).1 = process_dataframe (h r) := by
  have hrd : ∀ (hh : Heap) (d : DataFrame), setRef hh fresh d r = hh r :=
    fun hh d => setRef_ne hh fresh d r hne
  have hfd : ∀ (hh : Heap) (d : DataFrame), setRef hh fresh d fresh = d :=
    fun hh d => setRef_self hh fresh d
  unfold processMut
  simp only [hfd]
  unfold process_dataframe drop_duplicate_research_ids
  by_cases hg : "Grade" ∈ (coerceFrame (clean_column_names (h r))).columns
  · by_cases hR : "ResearchId" ∈ (coerceFrame (clean_column_names (h r))).columns
    · rw [if_pos hg, if_pos hg,
        if_pos (show "ResearchId" ∈
          (sortFrame (coerceFrame (clean_column_names (h r)))).columns from hR),
        if_pos hR]
      exact ⟨by simp only [hrd], rfl⟩
    · rw [if_pos hg, if_pos hg,
        if_neg (show "ResearchId" ∉
          (sortFrame (coerceFrame (clean_column_names (h r)))).columns from hR),
        if_neg hR]
      exact ⟨by simp only [hrd], rfl⟩
  · rw [if_neg hg, if_neg hg]
    exact ⟨by simp only [hrd], rfl⟩

/-- Witness for C10 at a concrete heap and distinct references. -/
theorem C10_frame_effect_witness :
    (processMut (fun _ => ⟨["Grade"], []⟩) 0 1).2 0 = ⟨["Grade"], []⟩ ∧
    (processMut (fun _ => ⟨["Grade"], []⟩) 0 1).1 =
      process_dataframe ⟨["Grade"], []⟩ :=
  C10_frame_effect (fun _ => ⟨["Grade"], []⟩) 0 1 (by decide)

end StudentMonitoring
